import Mathlib

set_option maxRecDepth 4000

namespace Collectd

/-!
Shallow embedding of src/collector/monitor.go (collectd-docker).

Go strings are modeled as Lean String values; the Go string primitives used
by the source (strings.HasPrefix, strings.TrimPrefix, strings.Split,
strings.Join, strconv.Itoa, the regexp split on the class of hyphen and dot)
are defined below on the character-list representation. Go maps are read
through association lists: map reads are List.lookup, and a map write is
modeled by consing the new binding in front, so that a later write shadows an
earlier one under List.lookup, as it does in a Go map.
-/

/-- Container metadata as read by the monitor: the parts of docker.Container
that the source consults (ID, Config.Labels, Config.Env). -/
structure Container where
  id : String
  labels : List (String × String)
  env : List String
deriving DecidableEq

/-- Go strings.HasPrefix on the character representation. -/
def goHasPfx (s pfx : String) : Bool :=
  pfx.data.isPrefixOf s.data

/-- Go strings.TrimPrefix: remove pfx from the front of s when it is a
prefix of s, otherwise return s unchanged. -/
def goTrimPfx (s pfx : String) : String :=
  if goHasPfx s pfx then ⟨s.data.drop pfx.data.length⟩ else s

/-- Core of a split at every character satisfying p, keeping empty
segments, as Go strings.Split does for a one-character separator and as
regexp.Split does for a one-character class. -/
def splitChars (p : Char → Bool) : List Char → List (List Char)
  | [] => [[]]
  | c :: rest =>
    if p c then [] :: splitChars p rest
    else
      match splitChars p rest with
      | [] => [[c]]
      | s :: ss => (c :: s) :: ss

/-- Go strings.Split(s, sep) for the one-character separator used by
extractTagsFromApp. -/
def goSplit (s : String) (sep : Char) : List String :=
  (splitChars (fun c => c == sep) s.data).map (fun l => ⟨l⟩)

/-- The split splitregexp.Split(task, -1) of the source, where splitregexp
is the compiled regular expression [-.]: the task is split at every literal
hyphen or dot character. -/
def goSplitTask (s : String) : List String :=
  (splitChars (fun c => c == '-' || c == '.') s.data).map (fun l => ⟨l⟩)

/-- Go strings.Join(xs, sep). -/
def goJoin : List String → String → String
  | [], _ => ""
  | [x], _ => x
  | x :: y :: rest, sep => x ++ sep ++ goJoin (y :: rest) sep

/-- Fuel-bounded decimal digit list of n, most significant digit first;
fuel n + 1 always suffices. -/
def itoaCore : Nat → Nat → List Char
  | 0, _ => []
  | fuel + 1, n =>
    if n < 10 then [Nat.digitChar n]
    else itoaCore fuel (n / 10) ++ [Nat.digitChar (n % 10)]

/-- Go strconv.Itoa for the nonnegative loop counters that the source turns
into tag keys. -/
def itoa (n : Nat) : String :=
  ⟨itoaCore (n + 1) n⟩

/-- Source variable appLabel: Getenv("APP_LABEL_KEY", "app_id") with an
unset process environment, hence the default. -/
def appLabel : String := "app_id"

/-- Source variable appLocationLabel. -/
def appLocationLabel : String := "collectd_docker_app_label"

/-- Source variable taskLabel: default of
Getenv("TASK_LABEL_KEY", "collectd_docker_task"). -/
def taskLabel : String := "collectd_docker_task"

/-- Source variable taskLocationLabel. -/
def taskLocationLabel : String := "collectd_docker_task_label"

/-- Source variable appEnvPrefix: default of
Getenv("APP_ENV_KEY", "MARATHON_APP_ID") plus the equals sign. -/
def appEnvPfx : String := "MARATHON_APP_ID="

/-- Source variable appEnvLocationPrefix. -/
def appEnvLocationPfx : String := "COLLECTD_DOCKER_APP_ENV="

/-- Source variable appEnvLocationTrimPrefix. -/
def appEnvLocationTrimPfx : String := "COLLECTD_DOCKER_APP_ENV_TRIM_PREFIX="

/-- Source variable taskEnvPrefix: default of
Getenv("TASK_ENV_KEY", "MESOS_TASK_ID") plus the equals sign. -/
def taskEnvPfx : String := "MESOS_TASK_ID="

/-- Source variable taskEnvLocationPrefix. -/
def taskEnvLocationPfx : String := "COLLECTD_DOCKER_TASK_ENV="

/-- Source variable taskEnvLocationTrimPrefix. -/
def taskEnvLocationTrimPfx : String := "COLLECTD_DOCKER_TASK_ENV_TRIM_PREFIX="

/-- Source constant defaultTask. -/
def defaultTask : String := "default"

/-- Loop body of the source function extractEnv over an environment entry
list: the first entry that starts with the given prefix yields
strings.TrimPrefix of that entry, otherwise the empty string. -/
def extractEnvList : List String → String → String
  | [], _ => ""
  | e :: rest, pfx =>
    if goHasPfx e pfx then goTrimPfx e pfx else extractEnvList rest pfx

/-- Source function extractEnv. -/
def extractEnv (c : Container) (pfx : String) : String :=
  extractEnvList c.env pfx

/-- Source function extractMetadata: a present label wins, then a non-empty
environment value, then the missing default. -/
def extractMetadata (c : Container) (label envPfx missing : String) : String :=
  match c.labels.lookup label with
  | some app => app
  | none =>
    let env := extractEnv c envPfx
    if env ≠ "" then env else missing

/-- Value of the local variable app of the source function extractApp just
before the trim step: location indirection when the location name resolves,
the direct lookups otherwise. -/
def resolvedApp (c : Container) : String :=
  let location := extractMetadata c appLocationLabel appEnvLocationPfx ""
  if location ≠ "" then extractMetadata c location (location ++ "=") ""
  else extractMetadata c appLabel appEnvPfx ""

/-- Source function extractApp. -/
def extractApp (c : Container) : String :=
  let app := resolvedApp c
  let pfx := extractEnv c appEnvLocationTrimPfx
  if pfx ≠ "" then goTrimPfx app pfx else app

/-- Value of the local variable task of the source function extractTask just
before the trim step. -/
def resolvedTask (c : Container) : String :=
  let location := extractMetadata c taskLocationLabel taskEnvLocationPfx ""
  if location ≠ "" then extractMetadata c location (location ++ "=") defaultTask
  else extractMetadata c taskLabel taskEnvPfx defaultTask

/-- Source function extractTask. -/
def extractTask (c : Container) : String :=
  let task := resolvedTask c
  let pfx := extractEnv c taskEnvLocationTrimPfx
  if pfx ≠ "" then goTrimPfx task pfx else task

/-- Tag map of a Monitor; writes cons in front, reads are List.lookup. -/
abbrev TagMap := List (String × String)

/-- Source function extractTagsFromApp. The loop for i from 1 while
i < len(split) is a fold over List.range' 1 (len - 1). -/
def extractTagsFromApp (tags : TagMap) (app : String) : TagMap :=
  let tags1 := ("app_id", app) :: tags
  let split := goSplit app '/'
  let tags2 := ("app", split.getLastD "") :: tags1
  let grp := split.dropLast
  if grp.length ≤ 1 then ("group", "/") :: tags2
  else
    let tags3 := ("group", goJoin grp "/") :: tags2
    (List.range' 1 (grp.length - 1)).foldl
      (fun t i => ("group" ++ itoa i, goJoin (grp.take (i + 1)) "/") :: t) tags3

/-- Source function extractTagsFromTask. The loop for i from 0 while
i < len(split) writes key task(i+1) with value split[i]. -/
def extractTagsFromTask (tags : TagMap) (task : String) : TagMap :=
  let split := goSplitTask task
  let tags1 := ("task", task) :: tags
  (List.range' 0 split.length).foldl
    (fun t i => ("task" ++ itoa (i + 1), split.getD i "") :: t) tags1

/-- Error outcomes of NewMonitor: a propagated docker inspection error, or
the sentinel ErrNoNeedToMonitor of the source. -/
inductive MonError where
  | inspectFailed (e : String)
  | noNeedToMonitor
deriving DecidableEq

/-- Source struct Monitor. -/
structure Monitor where
  id : String
  app : String
  task : String
  tags : TagMap
  interval : Int
deriving DecidableEq

/-- Source function NewMonitor. The call c.InspectContainer(id) on the
docker client is modeled by its result, passed in as an Except value. -/
def NewMonitor (inspected : Except String Container) (interval : Int) :
    Except MonError Monitor :=
  match inspected with
  | .error e => .error (.inspectFailed e)
  | .ok container =>
    let app := extractApp container
    if app = "" then .error .noNeedToMonitor
    else
      let task := extractTask container
      .ok ⟨container.id, app, task,
        extractTagsFromTask (extractTagsFromApp [] app) task, interval⟩

/-- Modelled from the spec: the Stats message type that handle sends on its
output channel is declared elsewhere in the repository (not under src); per
the spec it is the TaggedSnapshot, the Monitor's TagSet paired with one raw
snapshot, the snapshot itself being opaque. -/
structure TaggedSnapshot (σ : Type) where
  tags : TagMap
  stats : σ
deriving DecidableEq

/-- Go run-time panic relevant to the sampling loop: in Go, an integer
division or modulo expression with divisor 0 panics at run time. -/
inductive GoPanic where
  | divideByZero
deriving DecidableEq

/-- Sampling goroutine of the source method handle, on a finite arriving
snapshot sequence and an explicit counter i: evaluating i % m.interval
panics when the interval is 0; otherwise the item is forwarded tagged
exactly when i % interval == 0, and i increments for every item. Int.tmod
is the truncated modulo of Go. -/
def sampleLoop {σ : Type} (tags : TagMap) (interval : Int) :
    Nat → List σ → Except GoPanic (List (TaggedSnapshot σ))
  | _, [] => .ok []
  | i, s :: rest =>
    if interval = 0 then .error .divideByZero
    else if Int.tmod (i : Int) interval ≠ 0 then sampleLoop tags interval (i + 1) rest
    else (sampleLoop tags interval (i + 1) rest).map (fun out => ⟨tags, s⟩ :: out)

/-- Forwarding behaviour of the source method handle for a finite raw
stream: the goroutine runs the sampling loop from counter 0 with the
Monitor's tags and interval. -/
def handleForward {σ : Type} (m : Monitor) (l : List σ) :
    Except GoPanic (List (TaggedSnapshot σ)) :=
  sampleLoop m.tags m.interval 0 l

/-- Decimal value of a digit character list, used to read a decimal
representation back. -/
def decimalVal (l : List Char) : Nat :=
  l.foldl (fun a c => a * 10 + (c.toNat - 48)) 0

/-- Container whose location label names a label that does not exist while a
direct app label is present. -/
def locMissBoth : Container :=
  ⟨"c1", [("collectd_docker_app_label", "myloc"), ("app_id", "direct-app")], []⟩

/-- Container carrying the direct app label of spec scenario 1 and no
location keys. -/
def scenario1 : Container :=
  ⟨"c2", [("app_id", "/infra/web/api")], []⟩

/-- Container of spec scenario 4: a location label pointing at another label
whose value is svc-42, next to a direct label with a different value. -/
def scenario4 : Container :=
  ⟨"c4", [("collectd_docker_app_label", "other"), ("other", "svc-42"),
          ("app_id", "something-else")], []⟩

/-- Container with no identity keys at all. -/
def bareContainer : Container :=
  ⟨"c0", [], []⟩

/-- Container with a resolvable app identity. -/
def goodContainer : Container :=
  ⟨"cid", [("app_id", "myapp")], []⟩

/-- Container whose app trim value is a prefix of the resolved app. -/
def trimApp : Container :=
  ⟨"ct", [("app_id", "/pre/app")], ["COLLECTD_DOCKER_APP_ENV_TRIM_PREFIX=/pre"]⟩

/-- Container whose app trim value is not a prefix of the resolved app. -/
def trimMiss : Container :=
  ⟨"cm", [("app_id", "xyz")], ["COLLECTD_DOCKER_APP_ENV_TRIM_PREFIX=abc"]⟩

/-- Container whose task trim value is a prefix of the resolved task. -/
def trimTask : Container :=
  ⟨"ck", [("collectd_docker_task", "t-99")],
   ["COLLECTD_DOCKER_TASK_ENV_TRIM_PREFIX=t-"]⟩

/-- Container with one environment entry whose remainder after the prefix
KEY= is empty. -/
def envEmptyVal : Container :=
  ⟨"ce", [], ["KEY="]⟩

/-- Monitor value with sampling interval 2, for exercising the sampler. -/
def monInterval2 : Monitor :=
  ⟨"x", "a", "d", [("app", "a")], 2⟩

/-- Monitor value with the unvalidated sampling interval 0. -/
def monInterval0 : Monitor :=
  ⟨"x", "a", "d", [("app", "a")], 0⟩

/-! Helper lemmas about the decimal representation itoa. -/

theorem itoaCore_succ_ne_nil (f n : Nat) : itoaCore (f + 1) n ≠ [] := by
  unfold itoaCore
  split
  · simp
  · simp

theorem itoa_data_ne_nil (n : Nat) : (itoa n).data ≠ [] :=
  itoaCore_succ_ne_nil n n

theorem decimalVal_append_digit (l : List Char) (c : Char) :
    decimalVal (l ++ [c]) = decimalVal l * 10 + (c.toNat - 48) := by
  simp [decimalVal, List.foldl_append]

theorem digitChar_val : ∀ n < 10, (Nat.digitChar n).toNat - 48 = n := by decide

theorem decimalVal_itoaCore :
    ∀ f n, n < 10 ^ f → 1 ≤ f → decimalVal (itoaCore f n) = n := by
  intro f
  induction f with
  | zero => intro n _ h; omega
  | succ f ih =>
    intro n hlt _
    unfold itoaCore
    split
    · next h =>
      simp [decimalVal]
      exact digitChar_val n h
    · next h =>
      rw [decimalVal_append_digit]
      have hf : 1 ≤ f := by
        by_contra hf0
        have : f = 0 := by omega
        subst this
        simp at hlt
        omega
      have hdiv : n / 10 < 10 ^ f := by
        have h10 : (0:Nat) < 10 := by omega
        rw [Nat.div_lt_iff_lt_mul h10]
        calc n < 10 ^ (f + 1) := hlt
        _ = 10 ^ f * 10 := by rw [Nat.pow_succ]
      rw [ih (n / 10) hdiv hf]
      rw [digitChar_val (n % 10) (Nat.mod_lt n (by omega))]
      omega

theorem itoa_inj {a b : Nat} (h : itoa a = itoa b) : a = b := by
  have hd : itoaCore (a + 1) a = itoaCore (b + 1) b := congrArg String.data h
  have ha : a < 10 ^ (a + 1) :=
    Nat.lt_of_lt_of_le (Nat.lt_pow_self (by omega) a)
      (Nat.pow_le_pow_right (by omega) (Nat.le_succ a))
  have hb : b < 10 ^ (b + 1) :=
    Nat.lt_of_lt_of_le (Nat.lt_pow_self (by omega) b)
      (Nat.pow_le_pow_right (by omega) (Nat.le_succ b))
  have := congrArg decimalVal hd
  rw [decimalVal_itoaCore (a + 1) a ha (by omega),
    decimalVal_itoaCore (b + 1) b hb (by omega)] at this
  exact this

/-! Helper lemmas about tag keys built from a fixed stem and a counter. -/

theorem key_inj (p : String) {a b : Nat} (h : p ++ itoa a = p ++ itoa b) :
    a = b := by
  have h2 := congrArg String.data h
  rw [String.data_append, String.data_append] at h2
  exact itoa_inj (String.ext (List.append_cancel_left h2))

theorem key_ne_stem (p : String) (n : Nat) : p ++ itoa n ≠ p := by
  intro h
  have h2 := congrArg String.data h
  rw [String.data_append] at h2
  have h4 : p.data ++ (itoa n).data = p.data ++ [] := by simpa using h2
  exact itoa_data_ne_nil n (List.append_cancel_left h4)

theorem gkey_ne_app (i : Nat) : "group" ++ itoa i ≠ "app" := by
  intro h
  have h2 : ("group" ++ itoa i).data.head? = ("app" : String).data.head? :=
    congrArg (fun s => s.data.head?) h
  have h3 : (some 'g' : Option Char) = some 'a' := h2
  exact absurd h3 (by decide)

theorem gkey_ne_app_id (i : Nat) : "group" ++ itoa i ≠ "app_id" := by
  intro h
  have h2 : ("group" ++ itoa i).data.head? = ("app_id" : String).data.head? :=
    congrArg (fun s => s.data.head?) h
  have h3 : (some 'g' : Option Char) = some 'a' := h2
  exact absurd h3 (by decide)

/-! Helper lemmas about the association-list reading of Go map writes. -/

theorem lookup_cons_eq (k v : String) (t : TagMap) :
    List.lookup k ((k, v) :: t) = some v := by
  simp [List.lookup_cons]

theorem lookup_cons_ne (k a v : String) (t : TagMap) (h : k ≠ a) :
    List.lookup k ((a, v) :: t) = List.lookup k t := by
  have hb : (k == a) = false := by simpa using h
  simp [List.lookup_cons, hb]

theorem lookup_append_none (k : String) :
    ∀ (xs ys : TagMap), (∀ p ∈ xs, p.1 ≠ k) →
      List.lookup k (xs ++ ys) = List.lookup k ys := by
  intro xs
  induction xs with
  | nil => intro ys _; simp
  | cons a xs ih =>
    intro ys h
    obtain ⟨a1, a2⟩ := a
    have ha : a1 ≠ k := h (a1, a2) (by simp)
    rw [List.cons_append, lookup_cons_ne k a1 a2 (xs ++ ys) (Ne.symm ha)]
    exact ih ys (fun p hp => h p (by simp [hp]))

theorem foldl_cons_eq (g : Nat → String × String) :
    ∀ (l : List Nat) (init : TagMap),
      List.foldl (fun t i => g i :: t) init l = (l.map g).reverse ++ init := by
  intro l
  induction l with
  | nil => intro init; rfl
  | cons a l ih =>
    intro init
    rw [List.foldl_cons, ih (g a :: init), List.map_cons, List.reverse_cons,
      List.append_assoc, List.singleton_append]

theorem lookup_rev_range' (key val : Nat → String)
    (inj : ∀ a b, key a = key b → a = b) :
    ∀ (m s i : Nat) (rest : TagMap), s ≤ i → i < s + m →
      List.lookup (key i)
        (((List.range' s m).map (fun j => (key j, val j))).reverse ++ rest) =
        some (val i) := by
  intro m
  induction m with
  | zero => intro s i rest h1 h2; omega
  | succ m ih =>
    intro s i rest h1 h2
    rw [List.range'_succ, List.map_cons, List.reverse_cons, List.append_assoc,
      List.singleton_append]
    rcases Nat.eq_or_lt_of_le h1 with heq | hlt
    · subst heq
      rw [lookup_append_none]
      · exact lookup_cons_eq (key s) (val s) rest
      · intro p hp
        rw [List.mem_reverse, List.mem_map] at hp
        obtain ⟨j, hj, rfl⟩ := hp
        rw [List.mem_range'] at hj
        obtain ⟨t, _, rfl⟩ := hj
        intro hkey
        have := inj _ _ hkey
        omega
    · exact ih (s + 1) i ((key s, val s) :: rest) hlt (by omega)

/-! Closed forms of the two tag builders. -/

theorem extractTagsFromApp_eq (tags : TagMap) (app : String) :
    extractTagsFromApp tags app =
      (if (goSplit app '/').dropLast.length ≤ 1 then
        [("group", "/")]
      else
        ((List.range' 1 ((goSplit app '/').dropLast.length - 1)).map
          (fun j => ("group" ++ itoa j,
            goJoin ((goSplit app '/').dropLast.take (j + 1)) "/"))).reverse ++
          [("group", goJoin (goSplit app '/').dropLast "/")]) ++
      (("app", (goSplit app '/').getLastD "") :: ("app_id", app) :: tags) := by
  unfold extractTagsFromApp
  split
  · next h => rw [if_pos h, List.singleton_append]
  · next h =>
    rw [if_neg h, foldl_cons_eq, List.append_assoc, List.singleton_append]

theorem extractTagsFromTask_eq (tags : TagMap) (task : String) :
    extractTagsFromTask tags task =
      ((List.range' 0 (goSplitTask task).length).map
        (fun j => ("task" ++ itoa (j + 1), (goSplitTask task).getD j ""))).reverse ++
        (("task", task) :: tags) := by
  unfold extractTagsFromTask
  rw [foldl_cons_eq]

/-! Helper lemmas about the Go string primitives. -/

theorem goTrimPfx_append (p r : String) : goTrimPfx (p ++ r) p = r := by
  unfold goTrimPfx goHasPfx
  rw [String.data_append, if_pos]
  · show String.mk ((p.data ++ r.data).drop p.data.length) = r
    rw [List.drop_left]
  · simp [List.isPrefixOf_iff_prefix]

theorem goTrimPfx_not_pfx (s p : String) (h : goHasPfx s p = false) :
    goTrimPfx s p = s := by
  unfold goTrimPfx
  rw [h]
  rfl

theorem goTrimPfx_empty_left (p : String) : goTrimPfx "" p = "" := by
  unfold goTrimPfx goHasPfx
  split
  · next h =>
    show String.mk (List.drop p.data.length ("" : String).data) = ""
    have : ("" : String).data = [] := rfl
    rw [this, List.drop_nil]
  · rfl

theorem splitChars_ne_nil (p : Char → Bool) : ∀ l, splitChars p l ≠ [] := by
  intro l
  induction l with
  | nil => simp [splitChars]
  | cons c rest ih =>
    unfold splitChars
    split
    · simp
    · split
      · simp
      · simp

theorem splitChars_no_sep (p : Char → Bool) :
    ∀ l, (∀ c ∈ l, p c = false) → splitChars p l = [l] := by
  intro l
  induction l with
  | nil => intro _; rfl
  | cons c rest ih =>
    intro h
    unfold splitChars
    rw [if_neg]
    · rw [ih (fun x hx => h x (by simp [hx]))]
    · rw [h c (by simp)]
      simp

/-! Helper lemmas about the sampling loop. -/

theorem tmod_natCast (i n : Nat) :
    Int.tmod (i : Int) (n : Int) = ((i % n : Nat) : Int) := rfl

theorem sampleLoop_pos {σ : Type} (tags : TagMap) (kn : Nat) (hk : 1 ≤ kn) :
    ∀ (l : List σ) (i : Nat),
      sampleLoop tags (kn : Int) i l =
        Except.ok (((List.enumFrom i l).filter (fun p => p.1 % kn == 0)).map
          (fun p => ⟨tags, p.2⟩)) := by
  intro l
  induction l with
  | nil => intro i; rfl
  | cons s rest ih =>
    intro i
    unfold sampleLoop
    rw [if_neg (by omega : ¬((kn : Int) = 0))]
    rw [List.enumFrom_cons, List.filter_cons]
    by_cases hmod : i % kn = 0
    · have hcond : ¬(Int.tmod (i : Int) (kn : Int) ≠ 0) := by
        rw [tmod_natCast, hmod]
        simp
      rw [if_neg hcond, ih (i + 1)]
      have hdec : ((i, s).1 % kn == 0) = true := by simpa using hmod
      rw [hdec]
      rfl
    · have hcond : Int.tmod (i : Int) (kn : Int) ≠ 0 := by
        rw [tmod_natCast]
        exact_mod_cast hmod
      rw [if_pos hcond, ih (i + 1)]
      have hdec : ((i, s).1 % kn == 0) = false := by simpa using hmod
      rw [hdec]
      simp

theorem count_multiples (kn : Nat) (hk : 1 ≤ kn) :
    ∀ N, ((List.range N).filter (fun j => j % kn == 0)).length =
      (N + kn - 1) / kn := by
  intro N
  induction N with
  | zero =>
    simp
    exact (Nat.div_eq_of_lt (by omega)).symm
  | succ n ih =>
    rw [List.range_succ, List.filter_append, List.length_append, ih]
    have harith : n + 1 + kn - 1 = (n + kn - 1) + 1 := by omega
    rw [harith, Nat.succ_div]
    have hdvd : (kn ∣ n + kn - 1 + 1) ↔ (kn ∣ n) := by
      have heq : n + kn - 1 + 1 = n + kn := by omega
      rw [heq]
      constructor
      · intro hd
        have h3 := Nat.dvd_sub' hd (Nat.dvd_refl kn)
        simpa using h3
      · intro hd
        rcases hd with ⟨q, hq⟩
        exact ⟨q + 1, by rw [Nat.mul_succ]; omega⟩
    by_cases h : n % kn = 0
    · have h1 : kn ∣ n := Nat.dvd_of_mod_eq_zero h
      rw [if_pos (hdvd.mpr h1)]
      have hb : (n % kn == 0) = true := by simpa using h
      have h2 : ((List.filter (fun j => j % kn == 0) [n]).length = 1) := by
        simp [List.filter, hb]
      omega
    · have h1 : ¬ kn ∣ n := fun hd => h (Nat.mod_eq_zero_of_dvd hd)
      rw [if_neg (fun hd => h1 (hdvd.mp hd))]
      have hb : (n % kn == 0) = false := by simpa using h
      have h2 : ((List.filter (fun j => j % kn == 0) [n]).length = 0) := by
        simp [List.filter, hb]
      omega

theorem length_filter_enum {σ : Type} (l : List σ) (kn : Nat) :
    ((List.enumFrom 0 l).filter (fun p => p.1 % kn == 0)).length =
      ((List.range l.length).filter (fun j => j % kn == 0)).length := by
  have h1 : List.range l.length = (List.enumFrom 0 l).map Prod.fst := by
    rw [List.enumFrom_map_fst, List.range_eq_range']
  rw [h1, List.filter_map, List.length_map]
  rfl

/-! Helper lemmas about the environment scan. -/

theorem extractEnvList_of_find_some :
    ∀ (l : List String) (pfx e : String),
      l.find? (fun x => goHasPfx x pfx) = some e →
      extractEnvList l pfx = goTrimPfx e pfx := by
  intro l
  induction l with
  | nil => intro pfx e h; simp at h
  | cons a l ih =>
    intro pfx e h
    unfold extractEnvList
    by_cases hp : goHasPfx a pfx
    · rw [List.find?_cons_of_pos (p := fun x => goHasPfx x pfx) l hp] at h
      rw [if_pos hp]
      rw [Option.some.injEq] at h
      rw [h]
    · rw [List.find?_cons_of_neg (p := fun x => goHasPfx x pfx) l
        (by simpa using hp)] at h
      rw [if_neg hp]
      exact ih pfx e h

theorem extractEnvList_of_find_none :
    ∀ (l : List String) (pfx : String),
      l.find? (fun x => goHasPfx x pfx) = none →
      extractEnvList l pfx = "" := by
  intro l
  induction l with
  | nil => intro pfx _; rfl
  | cons a l ih =>
    intro pfx h
    unfold extractEnvList
    by_cases hp : goHasPfx a pfx
    · rw [List.find?_cons_of_pos (p := fun x => goHasPfx x pfx) l hp] at h
      exact absurd h (by simp)
    · rw [List.find?_cons_of_neg (p := fun x => goHasPfx x pfx) l
        (by simpa using hp)] at h
      rw [if_neg hp]
      exact ih pfx h

/-! The claims. -/

/-- C1, counterexample: in locMissBoth the location label resolves to the
name myloc, the referenced label and the referenced environment entry are
both absent, and a non-empty direct app label is present; yet resolution
yields the empty string, not the direct label's value, so the claimed
fall-through to the direct lookups does not happen. -/
theorem c1_counterexample :
    extractMetadata locMissBoth appLocationLabel appEnvLocationPfx "" = "myloc" ∧
    locMissBoth.labels.lookup "myloc" = none ∧
    extractEnv locMissBoth ("myloc" ++ "=") = "" ∧
    locMissBoth.labels.lookup appLabel = some "direct-app" ∧
    extractEnv locMissBoth appEnvPfx = "" ∧
    extractApp locMissBoth = "" ∧
    extractApp locMissBoth ≠ "direct-app" := by decide

/-- C1, amended: when the location name resolves to a non-empty label name
but the referenced label and the referenced environment entry are both
absent, resolution does not fall through to the direct lookups: the app
identity is the empty string, whatever direct app label is present. -/
theorem c1_amended_spec (c : Container) (loc w : String)
    (hloc : extractMetadata c appLocationLabel appEnvLocationPfx "" = loc)
    (hne : loc ≠ "")
    (hlab : c.labels.lookup loc = none)
    (henv : extractEnv c (loc ++ "=") = "")
    (hdirect : c.labels.lookup appLabel = some w) :
    resolvedApp c = "" ∧ extractApp c = "" := by
  have h1 : resolvedApp c = "" := by
    unfold resolvedApp
    rw [hloc, if_pos hne]
    unfold extractMetadata
    rw [hlab]
    simp [henv]
  refine ⟨h1, ?_⟩
  show (if extractEnv c appEnvLocationTrimPfx ≠ "" then
      goTrimPfx (resolvedApp c) (extractEnv c appEnvLocationTrimPfx)
    else resolvedApp c) = ""
  rw [h1]
  split
  · exact goTrimPfx_empty_left _
  · rfl

/-- C1, witness: the amended theorem applied to the container locMissBoth. -/
theorem c1_witness : resolvedApp locMissBoth = "" ∧ extractApp locMissBoth = "" :=
  c1_amended_spec locMissBoth "myloc" "direct-app"
    (by decide) (by decide) (by decide) (by decide) (by decide)

/-- C2, counterexample: the app identity /infra/web/api splits with a
leading empty segment, so the group tag is /infra/web (not infra/web),
group1 is /infra (not infra/web), and a group2 tag exists. -/
theorem c2_counterexample :
    extractApp scenario1 = "/infra/web/api" ∧
    List.lookup "group" (extractTagsFromApp [] (extractApp scenario1)) =
      some "/infra/web" ∧
    (some "/infra/web" : Option String) ≠ some "infra/web" ∧
    List.lookup "group1" (extractTagsFromApp [] (extractApp scenario1)) =
      some "/infra" ∧
    (some "/infra" : Option String) ≠ some "infra/web" ∧
    List.lookup "group2" (extractTagsFromApp [] (extractApp scenario1)) ≠ none := by
  decide

/-- C2, amended: for the container of spec scenario 1 the app identity
resolves to /infra/web/api and expansion produces exactly the tags
app_id = /infra/web/api, app = api, group = /infra/web, group1 = /infra and
group2 = /infra/web. -/
theorem c2_amended_spec :
    extractApp scenario1 = "/infra/web/api" ∧
    extractTagsFromApp [] (extractApp scenario1) =
      [("group2", "/infra/web"), ("group1", "/infra"), ("group", "/infra/web"),
       ("app", "api"), ("app_id", "/infra/web/api")] := by
  decide

/-- C3: app-to-tags expansion keeps the whole identity in app_id, puts the
last slash-separated segment in app, sets group to the slash when at most
one leading segment remains, and otherwise sets group to the leading
segments joined and group i to the first i+1 leading segments joined, for
every i from 1 to the leading-segment count minus 1. -/
theorem c3_spec (app : String) :
    List.lookup "app_id" (extractTagsFromApp [] app) = some app ∧
    List.lookup "app" (extractTagsFromApp [] app) =
      some ((goSplit app '/').getLastD "") ∧
    ((goSplit app '/').dropLast.length ≤ 1 →
      List.lookup "group" (extractTagsFromApp [] app) = some "/") ∧
    (1 < (goSplit app '/').dropLast.length →
      List.lookup "group" (extractTagsFromApp [] app) =
        some (goJoin (goSplit app '/').dropLast "/") ∧
      (∀ i, 1 ≤ i → i < (goSplit app '/').dropLast.length →
        List.lookup ("group" ++ itoa i) (extractTagsFromApp [] app) =
          some (goJoin ((goSplit app '/').dropLast.take (i + 1)) "/"))) := by
  have base : ∀ k : String, k ≠ "group" → (∀ j : Nat, "group" ++ itoa j ≠ k) →
      List.lookup k (extractTagsFromApp [] app) =
        List.lookup k
          [("app", (goSplit app '/').getLastD ""), ("app_id", app)] := by
    intro k hk1 hk2
    rw [extractTagsFromApp_eq]
    by_cases hL : (goSplit app '/').dropLast.length ≤ 1
    · rw [if_pos hL, List.singleton_append,
        lookup_cons_ne k "group" "/" _ hk1]
    · rw [if_neg hL, List.append_assoc,
        lookup_append_none k _ _ ?_]
      · rw [List.singleton_append, lookup_cons_ne k "group" _ _ hk1]
      · intro p hp
        rw [List.mem_reverse, List.mem_map] at hp
        obtain ⟨j, _, rfl⟩ := hp
        exact hk2 j
  refine ⟨?_, ?_, ?_, ?_⟩
  · rw [base "app_id" (by decide) gkey_ne_app_id,
      lookup_cons_ne "app_id" "app" _ _ (by decide)]
    exact lookup_cons_eq "app_id" app []
  · rw [base "app" (by decide) gkey_ne_app]
    exact lookup_cons_eq "app" _ _
  · intro hL
    rw [extractTagsFromApp_eq, if_pos hL, List.singleton_append]
    exact lookup_cons_eq "group" "/" _
  · intro hL
    constructor
    · rw [extractTagsFromApp_eq, if_neg (by omega), List.append_assoc,
        lookup_append_none "group" _ _ ?_]
      · rw [List.singleton_append]
        exact lookup_cons_eq "group" _ _
      · intro p hp
        rw [List.mem_reverse, List.mem_map] at hp
        obtain ⟨j, _, rfl⟩ := hp
        exact key_ne_stem "group" j
    · intro i h1 h2
      rw [extractTagsFromApp_eq, if_neg (by omega), List.append_assoc,
        List.singleton_append]
      exact lookup_rev_range' (fun j => "group" ++ itoa j)
        (fun j => goJoin ((goSplit app '/').dropLast.take (j + 1)) "/")
        (fun a b h => key_inj "group" h)
        ((goSplit app '/').dropLast.length - 1) 1 i _ h1 (by omega)

/-- C3, witness: the expansions of a/b/c and a/b/c/d from the claim. -/
theorem c3_witness :
    List.lookup "app_id" (extractTagsFromApp [] "a/b/c") = some "a/b/c" ∧
    List.lookup "app" (extractTagsFromApp [] "a/b/c") = some "c" ∧
    List.lookup "group" (extractTagsFromApp [] "a/b/c") = some "a/b" ∧
    List.lookup ("group" ++ itoa 1) (extractTagsFromApp [] "a/b/c") =
      some "a/b" ∧
    List.lookup "group" (extractTagsFromApp [] "a/b/c/d") = some "a/b/c" ∧
    List.lookup ("group" ++ itoa 1) (extractTagsFromApp [] "a/b/c/d") =
      some "a/b" ∧
    List.lookup ("group" ++ itoa 2) (extractTagsFromApp [] "a/b/c/d") =
      some "a/b/c" ∧
    List.lookup "group" (extractTagsFromApp [] "x") = some "/" :=
  ⟨(c3_spec "a/b/c").1,
   ((c3_spec "a/b/c").2.1).trans (by rfl),
   (((c3_spec "a/b/c").2.2.2 (by decide)).1).trans (by rfl),
   (((c3_spec "a/b/c").2.2.2 (by decide)).2 1 (by decide) (by decide)).trans
     (by rfl),
   (((c3_spec "a/b/c/d").2.2.2 (by decide)).1).trans (by rfl),
   (((c3_spec "a/b/c/d").2.2.2 (by decide)).2 1 (by decide) (by decide)).trans
     (by rfl),
   (((c3_spec "a/b/c/d").2.2.2 (by decide)).2 2 (by decide) (by decide)).trans
     (by rfl),
   (c3_spec "x").2.2.1 (by decide)⟩

/-- C4: task-to-tags expansion splits the task at every literal hyphen or
dot, keeps the unmodified task under the task key and stores segment i
(1-indexed) under task i; a task with no hyphen and no dot yields only the
task and task1 keys, both the whole string; worker-7.canary yields worker,
7 and canary. -/
theorem c4_spec (task : String) :
    List.lookup "task" (extractTagsFromTask [] task) = some task ∧
    (∀ i, i < (goSplitTask task).length →
      List.lookup ("task" ++ itoa (i + 1)) (extractTagsFromTask [] task) =
        some ((goSplitTask task).getD i "")) ∧
    ((∀ ch ∈ task.data, ch ≠ '-' ∧ ch ≠ '.') →
      extractTagsFromTask [] task = [("task" ++ itoa 1, task), ("task", task)]) ∧
    (List.lookup "task1" (extractTagsFromTask [] "worker-7.canary") =
        some "worker" ∧
     List.lookup "task2" (extractTagsFromTask [] "worker-7.canary") =
        some "7" ∧
     List.lookup "task3" (extractTagsFromTask [] "worker-7.canary") =
        some "canary") := by
  refine ⟨?_, ?_, ?_, by decide⟩
  · rw [extractTagsFromTask_eq, lookup_append_none "task" _ _ ?_]
    · exact lookup_cons_eq "task" task []
    · intro p hp
      rw [List.mem_reverse, List.mem_map] at hp
      obtain ⟨j, _, rfl⟩ := hp
      exact key_ne_stem "task" (j + 1)
  · intro i h
    rw [extractTagsFromTask_eq]
    exact lookup_rev_range' (fun j => "task" ++ itoa (j + 1))
      (fun j => (goSplitTask task).getD j "")
      (fun a b hh => by
        have := key_inj "task" hh
        omega)
      (goSplitTask task).length 0 i _ (Nat.zero_le i) (by omega)
  · intro h
    have hs : goSplitTask task = [task] := by
      unfold goSplitTask
      rw [splitChars_no_sep _ task.data ?_]
      · rfl
      · intro c hc
        have hcc := h c hc
        have h1 : (c == '-') = false := by simpa using hcc.1
        have h2 : (c == '.') = false := by simpa using hcc.2
        rw [h1, h2]
        rfl
    rw [extractTagsFromTask_eq, hs]
    rfl

/-- C4, witness: the theorem applied to a separator-free task. -/
theorem c4_witness :
    extractTagsFromTask [] "nodash" =
      [("task" ++ itoa 1, "nodash"), ("task", "nodash")] ∧
    List.lookup "task" (extractTagsFromTask [] "worker-7.canary") =
      some "worker-7.canary" ∧
    List.lookup ("task" ++ itoa 2) (extractTagsFromTask [] "worker-7.canary") =
      some "7" :=
  ⟨(c4_spec "nodash").2.2.1 (by decide),
   (c4_spec "worker-7.canary").1,
   ((c4_spec "worker-7.canary").2.1 1 (by decide)).trans (by rfl)⟩

/-- C5: for a positive interval the sampler forwards exactly the raw items
whose 0-based position is a multiple of the interval, each paired with the
Monitor's tags, in original order, and the number forwarded from the first
N items is the rounded-up quotient of N by the interval. -/
theorem c5_spec {σ : Type} (m : Monitor) (l : List σ) (hk : 1 ≤ m.interval) :
    handleForward m l =
      Except.ok ((l.enum.filter (fun p => p.1 % m.interval.toNat == 0)).map
        (fun p => ⟨m.tags, p.2⟩)) ∧
    ((l.enum.filter (fun p => p.1 % m.interval.toNat == 0)).map
      (fun p => (⟨m.tags, p.2⟩ : TaggedSnapshot σ))).length =
      (l.length + m.interval.toNat - 1) / m.interval.toNat := by
  have hkn : 1 ≤ m.interval.toNat := by omega
  have hcast : ((m.interval.toNat : Nat) : Int) = m.interval :=
    Int.toNat_of_nonneg (by omega)
  constructor
  · unfold handleForward
    rw [← hcast]
    exact sampleLoop_pos m.tags m.interval.toNat hkn l 0
  · rw [List.length_map]
    rw [show l.enum = List.enumFrom 0 l from rfl]
    rw [length_filter_enum l m.interval.toNat]
    exact count_multiples m.interval.toNat hkn l.length

/-- C5, witness: with interval 2 the items at positions 0, 2 and 4 of a
five-item stream are forwarded with the tags, three items in all. -/
theorem c5_witness :
    handleForward monInterval2 [10, 20, 30, 40, 50] =
      Except.ok [⟨monInterval2.tags, 10⟩, ⟨monInterval2.tags, 30⟩,
        ⟨monInterval2.tags, 50⟩] ∧
    ((([(10 : Nat), 20, 30, 40, 50]).enum.filter
        (fun p => p.1 % monInterval2.interval.toNat == 0)).map
      (fun p => (⟨monInterval2.tags, p.2⟩ : TaggedSnapshot Nat))).length =
      (([(10 : Nat), 20, 30, 40, 50]).length + monInterval2.interval.toNat - 1) /
        monInterval2.interval.toNat :=
  ⟨(c5_spec monInterval2 [10, 20, 30, 40, 50] (by decide)).1.trans (by rfl),
   (c5_spec monInterval2 [10, 20, 30, 40, 50] (by decide)).2⟩

/-- C6: a location label pointing at an existing label yields that label's
value even when a direct label is present; within one lookup step a present
label wins over the environment; and when none of the four lookups yields a
value the resolved app is empty and the resolved task is default. -/
theorem c6_spec :
    (∀ (c : Container) (loc v w : String),
      c.labels.lookup appLocationLabel = some loc → loc ≠ "" →
      c.labels.lookup loc = some v →
      c.labels.lookup appLabel = some w →
      resolvedApp c = v) ∧
    (∀ (c : Container) (label envPfx missing v : String),
      c.labels.lookup label = some v →
      extractMetadata c label envPfx missing = v) ∧
    (∀ c : Container,
      c.labels.lookup appLocationLabel = none →
      extractEnv c appEnvLocationPfx = "" →
      c.labels.lookup appLabel = none →
      extractEnv c appEnvPfx = "" →
      c.labels.lookup taskLocationLabel = none →
      extractEnv c taskEnvLocationPfx = "" →
      c.labels.lookup taskLabel = none →
      extractEnv c taskEnvPfx = "" →
      resolvedApp c = "" ∧ resolvedTask c = "default") := by
  refine ⟨?_, ?_, ?_⟩
  · intro c loc v w h1 h2 h3 _
    unfold resolvedApp
    have hm : extractMetadata c appLocationLabel appEnvLocationPfx "" = loc := by
      unfold extractMetadata
      rw [h1]
    rw [hm, if_pos h2]
    unfold extractMetadata
    rw [h3]
  · intro c label envPfx missing v h
    unfold extractMetadata
    rw [h]
  · intro c h1 h2 h3 h4 h5 h6 h7 h8
    constructor
    · unfold resolvedApp
      have hm : extractMetadata c appLocationLabel appEnvLocationPfx "" = "" := by
        unfold extractMetadata
        rw [h1]
        simp [h2]
      rw [hm]
      simp
      unfold extractMetadata
      rw [h3]
      simp [h4]
    · unfold resolvedTask
      have hm : extractMetadata c taskLocationLabel taskEnvLocationPfx "" = "" := by
        unfold extractMetadata
        rw [h5]
        simp [h6]
      rw [hm]
      simp
      unfold extractMetadata
      rw [h7]
      simp [h8]
      rfl

/-- C6, witness: scenario 4 resolves to svc-42 through the location label
although a different direct label is present; a present label beats the
environment; the bare container resolves to empty app and default task. -/
theorem c6_witness :
    resolvedApp scenario4 = "svc-42" ∧
    extractMetadata scenario1 "app_id" appEnvPfx "" = "/infra/web/api" ∧
    (resolvedApp bareContainer = "" ∧ resolvedTask bareContainer = "default") :=
  ⟨c6_spec.1 scenario4 "other" "svc-42" "something-else"
      (by decide) (by decide) (by decide) (by decide),
   c6_spec.2.1 scenario1 "app_id" appEnvPfx "" "/infra/web/api" (by decide),
   c6_spec.2.2 bareContainer (by decide) (by decide) (by decide) (by decide)
      (by decide) (by decide) (by decide) (by decide)⟩

/-- C7: when the trim value read from the per-identity trim environment key
is non-empty and is a prefix of the resolved identity, the final identity is
the resolved identity with that prefix removed once; when it is not a
prefix, the resolved identity is returned unchanged; the app and task trim
environment keys are distinct. -/
theorem c7_spec (c : Container) :
    (∀ r : String, extractEnv c appEnvLocationTrimPfx ≠ "" →
      resolvedApp c = extractEnv c appEnvLocationTrimPfx ++ r →
      extractApp c = r) ∧
    (extractEnv c appEnvLocationTrimPfx ≠ "" →
      goHasPfx (resolvedApp c) (extractEnv c appEnvLocationTrimPfx) = false →
      extractApp c = resolvedApp c) ∧
    (∀ r : String, extractEnv c taskEnvLocationTrimPfx ≠ "" →
      resolvedTask c = extractEnv c taskEnvLocationTrimPfx ++ r →
      extractTask c = r) ∧
    (extractEnv c taskEnvLocationTrimPfx ≠ "" →
      goHasPfx (resolvedTask c) (extractEnv c taskEnvLocationTrimPfx) = false →
      extractTask c = resolvedTask c) ∧
    appEnvLocationTrimPfx ≠ taskEnvLocationTrimPfx := by
  refine ⟨?_, ?_, ?_, ?_, by decide⟩
  · intro r hne heq
    show (if extractEnv c appEnvLocationTrimPfx ≠ "" then
        goTrimPfx (resolvedApp c) (extractEnv c appEnvLocationTrimPfx)
      else resolvedApp c) = r
    rw [if_pos hne, heq, goTrimPfx_append]
  · intro hne hpfx
    show (if extractEnv c appEnvLocationTrimPfx ≠ "" then
        goTrimPfx (resolvedApp c) (extractEnv c appEnvLocationTrimPfx)
      else resolvedApp c) = resolvedApp c
    rw [if_pos hne, goTrimPfx_not_pfx _ _ hpfx]
  · intro r hne heq
    show (if extractEnv c taskEnvLocationTrimPfx ≠ "" then
        goTrimPfx (resolvedTask c) (extractEnv c taskEnvLocationTrimPfx)
      else resolvedTask c) = r
    rw [if_pos hne, heq, goTrimPfx_append]
  · intro hne hpfx
    show (if extractEnv c taskEnvLocationTrimPfx ≠ "" then
        goTrimPfx (resolvedTask c) (extractEnv c taskEnvLocationTrimPfx)
      else resolvedTask c) = resolvedTask c
    rw [if_pos hne, goTrimPfx_not_pfx _ _ hpfx]

/-- C7, witness: trimApp yields /app after trimming /pre, trimMiss is
unchanged because abc is not a prefix of xyz, and trimTask yields 99 after
trimming t- from the task. -/
theorem c7_witness :
    extractApp trimApp = "/app" ∧
    extractApp trimMiss = resolvedApp trimMiss ∧
    extractTask trimTask = "99" :=
  ⟨(c7_spec trimApp).1 "/app" (by decide) (by decide),
   (c7_spec trimMiss).2.1 (by decide) (by decide),
   (c7_spec trimTask).2.2.1 "99" (by decide) (by decide)⟩

/-- C8: an inspection error is propagated and no Monitor is created; an
empty resolved app yields the sentinel ErrNoNeedToMonitor, which differs
from every inspection error; a non-empty app yields a Monitor. -/
theorem c8_spec :
    (∀ (e : String) (interval : Int),
      NewMonitor (Except.error e) interval =
        Except.error (MonError.inspectFailed e)) ∧
    (∀ (c : Container) (interval : Int), extractApp c = "" →
      NewMonitor (Except.ok c) interval =
        Except.error MonError.noNeedToMonitor) ∧
    (∀ e : String,
      (MonError.noNeedToMonitor : MonError) ≠ MonError.inspectFailed e) ∧
    (∀ (c : Container) (interval : Int), extractApp c ≠ "" →
      NewMonitor (Except.ok c) interval = Except.ok
        ⟨c.id, extractApp c, extractTask c,
         extractTagsFromTask (extractTagsFromApp [] (extractApp c))
           (extractTask c), interval⟩) := by
  refine ⟨fun e i => rfl, ?_, ?_, ?_⟩
  · intro c i h
    unfold NewMonitor
    simp [h]
  · intro e h
    exact MonError.noConfusion h
  · intro c i h
    unfold NewMonitor
    simp [h]

/-- C8, witness: the three outcomes of NewMonitor at concrete inputs. -/
theorem c8_witness :
    NewMonitor (Except.error "boom") 10 =
      Except.error (MonError.inspectFailed "boom") ∧
    NewMonitor (Except.ok bareContainer) 10 =
      Except.error MonError.noNeedToMonitor ∧
    (MonError.noNeedToMonitor : MonError) ≠ MonError.inspectFailed "boom" ∧
    NewMonitor (Except.ok goodContainer) 10 = Except.ok
      ⟨"cid", "myapp", "default",
       [("task1", "default"), ("task", "default"), ("group", "/"),
        ("app", "myapp"), ("app_id", "myapp")], 10⟩ :=
  ⟨c8_spec.1 "boom" 10,
   c8_spec.2.1 bareContainer 10 (by decide),
   c8_spec.2.2.1 "boom",
   (c8_spec.2.2.2 goodContainer 10 (by decide)).trans (by rfl)⟩

/-- C9: NewMonitor never validates the interval, succeeding for every
interval (zero and negative included) once inspection succeeds and the app
is non-empty; and with interval 0 the first arriving snapshot makes the
sampling loop evaluate a modulo with divisor 0, the Go division-by-zero
panic. -/
theorem c9_spec :
    (∀ (c : Container) (interval : Int), extractApp c ≠ "" →
      ∃ m : Monitor, NewMonitor (Except.ok c) interval = Except.ok m ∧
        m.interval = interval) ∧
    (∀ (σ : Type) (m : Monitor) (s : σ) (rest : List σ), m.interval = 0 →
      handleForward m (s :: rest) = Except.error GoPanic.divideByZero) := by
  constructor
  · intro c i h
    refine ⟨⟨c.id, extractApp c, extractTask c,
      extractTagsFromTask (extractTagsFromApp [] (extractApp c))
        (extractTask c), i⟩, ?_, rfl⟩
    unfold NewMonitor
    simp [h]
  · intro σ m s rest h
    unfold handleForward sampleLoop
    rw [if_pos h]

/-- C9, witness: construction succeeds with intervals 0 and -7, and the
interval-0 monitor panics on the first snapshot. -/
theorem c9_witness :
    (∃ m : Monitor, NewMonitor (Except.ok goodContainer) 0 = Except.ok m ∧
      m.interval = 0) ∧
    (∃ m : Monitor, NewMonitor (Except.ok goodContainer) (-7) = Except.ok m ∧
      m.interval = -7) ∧
    handleForward monInterval0 [(1 : Nat)] = Except.error GoPanic.divideByZero :=
  ⟨c9_spec.1 goodContainer 0 (by decide),
   c9_spec.1 goodContainer (-7) (by decide),
   c9_spec.2 Nat monInterval0 1 [] (by decide)⟩

/-- C10: the environment lookup returns the remainder of the first entry in
sequence order that starts with the prefix, ignoring later matches, and the
empty string when no entry matches; a first matching entry whose remainder
is empty makes extractMetadata fall through to its missing default, exactly
as if the entry were absent. -/
theorem c10_spec :
    (∀ (l : List String) (pfx e : String),
      l.find? (fun x => goHasPfx x pfx) = some e →
      extractEnvList l pfx = goTrimPfx e pfx) ∧
    (∀ (l : List String) (pfx : String),
      l.find? (fun x => goHasPfx x pfx) = none →
      extractEnvList l pfx = "") ∧
    (∀ (c : Container) (label pfx missing e : String),
      c.labels.lookup label = none →
      c.env.find? (fun x => goHasPfx x pfx) = some e →
      goTrimPfx e pfx = "" →
      extractMetadata c label pfx missing = missing) := by
  refine ⟨extractEnvList_of_find_some, extractEnvList_of_find_none, ?_⟩
  intro c label pfx missing e hlab hfind htrim
  unfold extractMetadata
  rw [hlab]
  have henv : extractEnv c pfx = "" := by
    unfold extractEnv
    rw [extractEnvList_of_find_some c.env pfx e hfind, htrim]
  simp [henv]

/-- C10, witness: the first of two matching entries wins, an unmatched
prefix yields the empty string, and an entry with an empty remainder falls
through to the missing default. -/
theorem c10_witness :
    extractEnvList ["OTHER=1", "KEY=val", "KEY=other"] "KEY=" =
      goTrimPfx "KEY=val" "KEY=" ∧
    extractEnvList ["OTHER=1"] "KEY=" = "" ∧
    extractMetadata envEmptyVal "app_id" "KEY=" "fallback" = "fallback" :=
  ⟨c10_spec.1 ["OTHER=1", "KEY=val", "KEY=other"] "KEY=" "KEY=val" (by decide),
   c10_spec.2.1 ["OTHER=1"] "KEY=" (by decide),
   c10_spec.2.2 envEmptyVal "app_id" "KEY=" "fallback" "KEY="
     (by decide) (by decide) (by decide)⟩

end Collectd
